import Mathlib

/-!
A shallow embedding of `src/agentic_llm.py` (class `AgenticLLM`): a pipeline
that classifies user input as factual or creative, generates a response with
conversation context, and keeps a bounded rolling memory of interactions.

Modelling conventions:
* Python strings are `String`; `str.strip()` / `str.lower()` are modelled by
  `pyStrip` / `String.toLower` (ASCII case folding, which covers every string
  literal appearing in the program).
* The outcome of one OpenAI chat-completion call is a `ProviderResult`:
  either the content string of the first choice, or an exception of any kind
  (network fault, malformed response, timeout, ...).  The pipeline functions
  take these outcomes as explicit parameters, which makes them pure.
* `deque(maxlen=n)` is a `List` together with the eviction rule `dequeAppend`.
* `time.time()` timestamps are abstract `Nat` values passed in by the caller.
* For the aliasing behaviour of `get_memory_summary` (which returns
  `list(self.memory)`, a fresh list sharing the interaction dicts), a second
  model `PyState` makes Python object identity explicit: the deque holds
  references into a heap of mutable interaction dicts.
-/

namespace AgenticLLM

/-- One stored interaction: the dict built by `_store_interaction`
(`user_input`, `response`, `intent`, `timestamp`). -/
structure Interaction where
  user_input : String
  response   : String
  intent     : String
  timestamp  : Nat
deriving Repr, DecidableEq

/-- The mutable state of an `AgenticLLM` instance that the claims concern:
the memory deque and its configured capacity (`deque(maxlen=memory_size)`). -/
structure AgentState where
  memory      : List Interaction
  memory_size : Nat
deriving Repr, DecidableEq

/-- Python's `l[-k:]` slice: the last `k` elements (all of `l` when `k ≥ len`). -/
def lastSlice (k : Nat) (l : List α) : List α :=
  l.drop (l.length - k)

/-- `deque(maxlen=n).append(x)`: append at the tail, evicting from the head
whenever the length would exceed `n`. -/
def dequeAppend (n : Nat) (mem : List Interaction) (x : Interaction) : List Interaction :=
  lastSlice n (mem ++ [x])

/-- Characters stripped by Python's `str.strip()` (the ASCII whitespace
characters; `\x0b` and `\x0c` are vertical tab and form feed). -/
def pyIsSpace (c : Char) : Bool :=
  c = ' ' || c = '\t' || c = '\n' || c = '\r' || c = Char.ofNat 11 || c = Char.ofNat 12

/-- Python's `s.strip()`: remove leading and trailing whitespace. -/
def pyStrip (s : String) : String :=
  ⟨((s.data.dropWhile pyIsSpace).reverse.dropWhile pyIsSpace).reverse⟩

/-- Python's `s.lower()`, as the character-wise case fold (ASCII suffices for
every literal the program compares against). -/
def pyToLower (s : String) : String :=
  ⟨s.data.map Char.toLower⟩

/-- Outcome of a single `client.chat.completions.create(...)` call as observed
by the caller: the content of the first choice, or an exception. -/
inductive ProviderResult where
  | ok (content : String)
  | error
deriving Repr, DecidableEq

/-- The two lines the `_get_context_string` loop emits for one interaction. -/
def interactionLines (i : Interaction) : List String :=
  ["User: " ++ i.user_input, "Assistant: " ++ i.response]

/-- The `context_lines` list built by the loop in `_get_context_string`:
two lines per stored interaction, in insertion order. -/
def contextLines : List Interaction → List String
  | [] => []
  | i :: rest => ("User: " ++ i.user_input) :: ("Assistant: " ++ i.response) :: contextLines rest

/-- `_get_context_string`: the sentinel on an empty memory, otherwise the
newline join of `context_lines[-6:]` (the code keeps only the last 6 lines,
i.e. the last 3 interactions). -/
def _get_context_string (memory : List Interaction) : String :=
  if memory.isEmpty then "No previous conversation."
  else String.intercalate "\n" (lastSlice 6 (contextLines memory))

/-- `_detect_intent`, given the outcome of the classification call: on any
exception return `'factual'`; otherwise strip and lower-case the content and
coerce anything outside `{'factual', 'creative'}` to `'factual'`. -/
def _detect_intent (pr : ProviderResult) : String :=
  match pr with
  | .error => "factual"
  | .ok content =>
    let intent := pyToLower (pyStrip content)
    if intent = "factual" ∨ intent = "creative" then intent
    else "factual"

/-- The fixed apology returned by `_generate_factual_response` on a provider
fault. -/
def factualApology : String :=
  "I apologize, but I encountered an error while processing your question. Please try again."

/-- The fixed apology returned by `_generate_creative_response` on a provider
fault. -/
def creativeApology : String :=
  "I apologize, but I encountered an error while generating creative content. Please try again."

/-- The `user_message` f-string built by `_generate_factual_response` around
the rendered context. -/
def factualUserMessage (memory : List Interaction) (user_input : String) : String :=
  "Context from previous conversation:\n" ++ _get_context_string memory ++
    "\n\nCurrent question: " ++ user_input ++ "\n\nPlease provide a direct, factual answer."

/-- The `user_message` f-string built by `_generate_creative_response` around
the rendered context. -/
def creativeUserMessage (memory : List Interaction) (user_input : String) : String :=
  "Context from previous conversation:\n" ++ _get_context_string memory ++
    "\n\nCurrent creative request: " ++ user_input ++
    "\n\nPlease generate creative content based on this request."

/-- What one generator variant does: the request it hands to the provider and
the response text it returns to `process_input`. -/
structure GenOutcome where
  request  : String
  response : String
deriving Repr, DecidableEq

/-- `_generate_factual_response`: build the user message from the current
context, call the provider; return the stripped content, or the fixed factual
apology on any exception. -/
def _generate_factual_response (memory : List Interaction) (user_input : String)
    (pr : ProviderResult) : GenOutcome :=
  ⟨factualUserMessage memory user_input,
   match pr with
   | .ok content => pyStrip content
   | .error => factualApology⟩

/-- `_generate_creative_response`: build the user message from the current
context, call the provider; return the stripped content, or the fixed creative
apology on any exception. -/
def _generate_creative_response (memory : List Interaction) (user_input : String)
    (pr : ProviderResult) : GenOutcome :=
  ⟨creativeUserMessage memory user_input,
   match pr with
   | .ok content => pyStrip content
   | .error => creativeApology⟩

/-- `_store_interaction`: append the interaction dict to the memory deque. -/
def _store_interaction (st : AgentState) (user_input response intent : String)
    (now : Nat) : AgentState :=
  { st with memory := dequeAppend st.memory_size st.memory ⟨user_input, response, intent, now⟩ }

/-- The dict returned by `process_input`. -/
structure ProcessResult where
  user_input : String
  intent     : String
  response   : String
deriving Repr, DecidableEq

/-- `process_input`, given the outcomes of the (up to) two provider calls it
makes and the current time: validate, detect intent, generate via the variant
selected by the intent, store, and return the result dict together with the
updated state. -/
def process_input (st : AgentState) (user_input : String)
    (intentPr genPr : ProviderResult) (now : Nat) : ProcessResult × AgentState :=
  if pyStrip user_input = "" then
    (⟨user_input, "unknown", "Please provide a valid input."⟩, st)
  else
    let input' := pyStrip user_input
    let intent := _detect_intent intentPr
    let gen :=
      if intent = "creative" then _generate_creative_response st.memory input' genPr
      else _generate_factual_response st.memory input' genPr
    let st' := _store_interaction st input' gen.response intent now
    (⟨input', intent, gen.response⟩, st')

/-- The generator call `process_input` makes: `none` when the validation
short-circuit fires, otherwise the request/response of the selected variant.
This is the same expression `process_input` evaluates, exposed so that the
message handed to the provider can be talked about. -/
def process_gen_call (st : AgentState) (user_input : String)
    (intentPr genPr : ProviderResult) : Option GenOutcome :=
  if pyStrip user_input = "" then none
  else
    let input' := pyStrip user_input
    let intent := _detect_intent intentPr
    some (if intent = "creative" then _generate_creative_response st.memory input' genPr
          else _generate_factual_response st.memory input' genPr)

/-- `get_memory_summary`: the current list of stored interactions, as values.
(The aliasing of the returned list is modelled separately by `PyState`.) -/
def get_memory_summary (st : AgentState) : List Interaction :=
  st.memory

/-- `clear_memory`: empty the deque. -/
def clear_memory (st : AgentState) : AgentState :=
  { st with memory := [] }

/-- The dict returned by `get_memory_stats`.  `memory_capacity` is an
`Option` because the early return on an empty memory omits that key. -/
structure MemoryStats where
  total_interactions : Nat
  factual_count      : Nat
  creative_count     : Nat
  memory_capacity    : Option Nat
deriving Repr, DecidableEq

/-- `get_memory_stats`: on an empty memory return zero counts (without the
capacity key); otherwise count the records labelled factual and creative and
report the deque's `maxlen`. -/
def get_memory_stats (st : AgentState) : MemoryStats :=
  if st.memory.isEmpty then ⟨0, 0, 0, none⟩
  else
    ⟨st.memory.length,
     st.memory.countP (fun i => i.intent == "factual"),
     st.memory.countP (fun i => i.intent == "creative"),
     some st.memory_size⟩

/-- Outcome of `AgenticLLM.__init__`. -/
inductive InitOutcome where
  | valueError (msg : String)
  | ok (st : AgentState)
deriving Repr, DecidableEq

/-- `__init__`: `os.getenv('OPENAI_API_KEY')` yields `apiKey` (`none` when the
variable is unset); a falsy value (`None` or the empty string) raises
`ValueError`, otherwise the instance starts with an empty deque of capacity
`memory_size`. -/
def agenticLLM_init (apiKey : Option String) (memory_size : Nat) : InitOutcome :=
  match apiKey with
  | none => .valueError "OPENAI_API_KEY not found in environment variables"
  | some k =>
    if k = "" then .valueError "OPENAI_API_KEY not found in environment variables"
    else .ok ⟨[], memory_size⟩

/-- The state of a freshly constructed instance. -/
def initialState (memory_size : Nat) : AgentState :=
  ⟨[], memory_size⟩

/-- Folding `_store_interaction` over a list of interactions: the state after
appending each of them in order (each `process_input` call ends in exactly
this append). -/
def runStores (st : AgentState) (xs : List Interaction) : AgentState :=
  xs.foldl (fun s i => _store_interaction s i.user_input i.response i.intent i.timestamp) st

theorem length_lastSlice (k : Nat) (l : List α) :
    (lastSlice k l).length = min k l.length := by
  simp only [lastSlice, List.length_drop]
  omega

theorem lastSlice_of_length_le {k : Nat} {l : List α} (h : l.length ≤ k) :
    lastSlice k l = l := by
  simp [lastSlice, Nat.sub_eq_zero_of_le h]

theorem lastSlice_eq_rtake (k : Nat) (l : List α) : lastSlice k l = l.rtake k := rfl

/-- Evicting down to the last `k` elements and then appending more commutes
with appending first and evicting once. -/
theorem lastSlice_append_absorb (k : Nat) (l t : List α) :
    lastSlice k (lastSlice k l ++ t) = lastSlice k (l ++ t) := by
  simp only [lastSlice_eq_rtake, List.rtake_eq_reverse_take_reverse, List.reverse_append,
    List.reverse_reverse]
  rw [List.take_append_eq_append_take, List.take_append_eq_append_take, List.take_take,
    List.length_reverse, Nat.min_eq_left (Nat.sub_le _ _)]

theorem runStores_eq (n : Nat) (xs : List Interaction) :
    ∀ m : List Interaction, m.length ≤ n →
      runStores ⟨m, n⟩ xs = ⟨lastSlice n (m ++ xs), n⟩ := by
  induction xs with
  | nil =>
    intro m hm
    simp [runStores, lastSlice_of_length_le hm]
  | cons i xs ih =>
    intro m hm
    have hstep : runStores ⟨m, n⟩ (i :: xs) = runStores ⟨dequeAppend n m i, n⟩ xs := rfl
    have hlen : (dequeAppend n m i).length ≤ n := by
      rw [dequeAppend, length_lastSlice]
      omega
    rw [hstep, ih _ hlen, dequeAppend, lastSlice_append_absorb]
    simp

end AgenticLLM

namespace AgenticLLM

/-- Claim C1: with capacity `N ≥ 1` and `M > N` appended interactions, the
memory never exceeds `N` records at any intermediate point, and
`get_memory_summary` returns exactly the last `N` appended interactions in
insertion order (the `lastSlice`), so the oldest were evicted first. -/
theorem c1_bounded_memory_fifo (n : Nat) (_hn : 1 ≤ n) (xs : List Interaction)
    (hM : n < xs.length) :
    (∀ k, (runStores (initialState n) (xs.take k)).memory.length ≤ n) ∧
    get_memory_summary (runStores (initialState n) xs) = lastSlice n xs ∧
    (get_memory_summary (runStores (initialState n) xs)).length = n := by
  have hrun : ∀ ys : List Interaction, runStores (initialState n) ys = ⟨lastSlice n ys, n⟩ := by
    intro ys
    have := runStores_eq n ys [] (by simp)
    simpa [initialState] using this
  refine ⟨?_, ?_, ?_⟩
  · intro k
    rw [hrun]
    simp only [length_lastSlice]
    omega
  · rw [hrun]
    rfl
  · rw [hrun]
    show (lastSlice n xs).length = n
    rw [length_lastSlice]
    omega

/-- Concrete material for exercising claim C1: capacity 2, three appends. -/
def xsC1 : List Interaction :=
  [⟨"a", "ra", "factual", 0⟩, ⟨"b", "rb", "creative", 1⟩, ⟨"c", "rc", "factual", 2⟩]

/-- Witness for C1 at capacity 2 and three concrete interactions: the memory
ends as the last two of them. -/
theorem c1_bounded_memory_fifo_witness :
    ((∀ k, (runStores (initialState 2) (xsC1.take k)).memory.length ≤ 2) ∧
      get_memory_summary (runStores (initialState 2) xsC1) = lastSlice 2 xsC1 ∧
      (get_memory_summary (runStores (initialState 2) xsC1)).length = 2) ∧
    get_memory_summary (runStores (initialState 2) xsC1)
      = [⟨"b", "rb", "creative", 1⟩, ⟨"c", "rc", "factual", 2⟩] := by
  refine ⟨c1_bounded_memory_fifo 2 (by decide) xsC1 (by decide), by decide⟩

/-- `_detect_intent` can only produce the two labels. -/
theorem detect_intent_cases (pr : ProviderResult) :
    _detect_intent pr = "factual" ∨ _detect_intent pr = "creative" := by
  cases pr with
  | error => left; rfl
  | ok content =>
    by_cases h : pyToLower (pyStrip content) = "factual" ∨ pyToLower (pyStrip content) = "creative"
    · simp only [_detect_intent]
      rw [if_pos h]
      exact h
    · left
      simp [_detect_intent, h]

/-- Claim C4: `_detect_intent` is total over provider outcomes and always
yields a label in `{factual, creative}`; whenever the stripped, lower-cased
provider content is outside that set, or the provider call fails, the result
is `factual`. -/
theorem c4_detect_intent_closed_domain (pr : ProviderResult) :
    (_detect_intent pr = "factual" ∨ _detect_intent pr = "creative") ∧
    (∀ s, pr = .ok s → pyToLower (pyStrip s) ≠ "factual" →
      pyToLower (pyStrip s) ≠ "creative" → _detect_intent pr = "factual") ∧
    (pr = .error → _detect_intent pr = "factual") := by
  refine ⟨detect_intent_cases pr, ?_, ?_⟩
  · rintro s rfl h1 h2
    simp [_detect_intent, h1, h2]
  · rintro rfl
    rfl

/-- Witness for C4: the malformed provider outputs `"maybe"`, `""`,
`"Factual!!"` and a failed call all coerce to `factual`, while a well-formed
`" Creative \n"` is kept. -/
theorem c4_detect_intent_closed_domain_witness :
    _detect_intent (.ok "maybe") = "factual" ∧
    _detect_intent (.ok "") = "factual" ∧
    _detect_intent (.ok "Factual!!") = "factual" ∧
    _detect_intent .error = "factual" ∧
    _detect_intent (.ok " Creative \n") = "creative" := by
  refine ⟨?_, ?_, ?_, ?_, by decide⟩
  · exact (c4_detect_intent_closed_domain (.ok "maybe")).2.1 "maybe" rfl (by decide) (by decide)
  · exact (c4_detect_intent_closed_domain (.ok "")).2.1 "" rfl (by decide) (by decide)
  · exact (c4_detect_intent_closed_domain (.ok "Factual!!")).2.1 "Factual!!" rfl
      (by decide) (by decide)
  · exact (c4_detect_intent_closed_domain .error).2.2 rfl

/-- Claim C6: on empty or whitespace-only input, `process_input` returns the
fixed invalid-input message with label `unknown` and leaves the state exactly
unchanged; quantifying over both provider outcomes shows neither the
classifier nor a generator influences the result (they are never consulted). -/
theorem c6_invalid_input_short_circuit (st : AgentState) (input : String)
    (intentPr genPr : ProviderResult) (now : Nat) (h : pyStrip input = "") :
    process_input st input intentPr genPr now
      = (⟨input, "unknown", "Please provide a valid input."⟩, st) := by
  simp [process_input, h]

/-- Witness for C6: whitespace-only input at a nonempty state, with provider
outcomes that would otherwise have produced a creative response. -/
theorem c6_invalid_input_short_circuit_witness :
    process_input ⟨xsC1, 3⟩ "   " (.ok "creative") (.ok "a poem") 7
      = (⟨"   ", "unknown", "Please provide a valid input."⟩, ⟨xsC1, 3⟩) :=
  c6_invalid_input_short_circuit ⟨xsC1, 3⟩ "   " (.ok "creative") (.ok "a poem") 7 (by decide)

/-- Claim C5: on non-empty input, when the generation call fails the pipeline
returns (without raising — the function is total) the fixed apology of the
selected variant together with the classified label, and the interaction with
that apology as its response is still appended to the memory. -/
theorem c5_generation_failure_apology (st : AgentState) (input : String)
    (intentPr : ProviderResult) (now : Nat) (h : pyStrip input ≠ "") :
    process_input st input intentPr .error now
      = (⟨pyStrip input, _detect_intent intentPr,
          if _detect_intent intentPr = "creative" then creativeApology else factualApology⟩,
         _store_interaction st (pyStrip input)
           (if _detect_intent intentPr = "creative" then creativeApology else factualApology)
           (_detect_intent intentPr) now) := by
  rw [process_input, if_neg h]
  by_cases hc : _detect_intent intentPr = "creative"
  · simp [hc, _generate_creative_response]
  · simp [hc, _generate_factual_response]

/-- Witness for C5: a factual question with a failed generation call ends as
the factual apology, stored in memory. -/
theorem c5_generation_failure_apology_witness :
    process_input (initialState 3) "What is the capital of France?" (.ok "factual")
        .error 5
      = (⟨"What is the capital of France?", "factual", factualApology⟩,
         ⟨[⟨"What is the capital of France?", factualApology, "factual", 5⟩], 3⟩) := by
  have h := c5_generation_failure_apology (initialState 3) "What is the capital of France?"
    (.ok "factual") 5 (by decide)
  exact h.trans (by decide)

/-- Claim C10: construction succeeds exactly when the API key lookup yields a
non-empty string; a missing or empty key raises `ValueError` (so no instance
exists then), and a non-empty key yields the empty history with the
configured capacity. -/
theorem c10_init_requires_api_key (apiKey : Option String) (n : Nat) :
    ((apiKey = none ∨ apiKey = some "") →
      agenticLLM_init apiKey n
        = .valueError "OPENAI_API_KEY not found in environment variables") ∧
    (∀ k, apiKey = some k → k ≠ "" → agenticLLM_init apiKey n = .ok (initialState n)) ∧
    ((∃ st, agenticLLM_init apiKey n = .ok st) ↔ ∃ k, apiKey = some k ∧ k ≠ "") ∧
    (∀ st, agenticLLM_init apiKey n = .ok st → st.memory = [] ∧ st.memory_size = n) := by
  refine ⟨?_, ?_, ?_, ?_⟩
  · rintro (rfl | rfl) <;> rfl
  · rintro k rfl hk
    simp [agenticLLM_init, hk, initialState]
  · constructor
    · rintro ⟨st, hst⟩
      cases apiKey with
      | none => simp [agenticLLM_init] at hst
      | some k =>
        refine ⟨k, rfl, ?_⟩
        intro hk
        subst hk
        simp [agenticLLM_init] at hst
    · rintro ⟨k, rfl, hk⟩
      exact ⟨initialState n, by simp [agenticLLM_init, hk, initialState]⟩
  · intro st hst
    cases apiKey with
    | none => simp [agenticLLM_init] at hst
    | some k =>
      by_cases hk : k = ""
      · subst hk
        simp [agenticLLM_init] at hst
      · rw [agenticLLM_init] at hst
        simp only [if_neg hk, InitOutcome.ok.injEq] at hst
        subst hst
        exact ⟨rfl, rfl⟩

/-- Witness for C10: a missing key and an empty key both fail, a concrete
non-empty key constructs the empty history of capacity 3. -/
theorem c10_init_requires_api_key_witness :
    agenticLLM_init none 3
      = .valueError "OPENAI_API_KEY not found in environment variables" ∧
    agenticLLM_init (some "") 3
      = .valueError "OPENAI_API_KEY not found in environment variables" ∧
    agenticLLM_init (some "sk-test-123") 3 = .ok ⟨[], 3⟩ := by
  refine ⟨(c10_init_requires_api_key none 3).1 (Or.inl rfl),
    (c10_init_requires_api_key (some "") 3).1 (Or.inr rfl), ?_⟩
  have h := (c10_init_requires_api_key (some "sk-test-123") 3).2.1 "sk-test-123" rfl (by decide)
  exact h.trans (by decide)

/-- Claim C3, counterexample: on the empty history `get_memory_stats` takes
the early return `{'total_interactions': 0, 'factual_count': 0,
'creative_count': 0}`, which omits the `memory_capacity` key — so it does not
report the configured capacity there, contrary to the claim. -/
theorem c3_stats_counterexample :
    get_memory_stats (initialState 3) = ⟨0, 0, 0, none⟩ ∧
    (get_memory_stats (initialState 3)).memory_capacity
      ≠ some (initialState 3).memory_size := by
  decide

/-- Claim C3 as amended: `get_memory_stats` always reports the total record
count and the counts of records labelled factual and creative (as lengths of
the corresponding filters of the summary), but the configured capacity is
reported only when the history is non-empty; on the empty history the
capacity field is absent. -/
theorem c3_memory_stats_amended (st : AgentState) :
    (get_memory_stats st).total_interactions = (get_memory_summary st).length ∧
    (get_memory_stats st).factual_count
      = ((get_memory_summary st).filter (fun i => i.intent == "factual")).length ∧
    (get_memory_stats st).creative_count
      = ((get_memory_summary st).filter (fun i => i.intent == "creative")).length ∧
    (get_memory_stats st).memory_capacity
      = (if st.memory = [] then none else some st.memory_size) := by
  by_cases h : st.memory = []
  · simp [get_memory_stats, get_memory_summary, h]
  · simp [get_memory_stats, get_memory_summary, h, List.isEmpty_iff,
      List.countP_eq_length_filter]

/-- The lines of a dropped prefix: dropping `d` interactions drops exactly
`2 * d` context lines. -/
theorem contextLines_drop :
    ∀ (l : List Interaction) (d : Nat), contextLines (l.drop d) = (contextLines l).drop (2 * d) := by
  intro l
  induction l with
  | nil => intro d; simp [contextLines]
  | cons i rest ih =>
    intro d
    cases d with
    | zero => simp
    | succ d' =>
      have : 2 * (d' + 1) = 2 * d' + 1 + 1 := by omega
      rw [List.drop_succ_cons, ih d', this, contextLines, List.drop_succ_cons,
        List.drop_succ_cons]

theorem contextLines_length (l : List Interaction) :
    (contextLines l).length = 2 * l.length := by
  induction l with
  | nil => rfl
  | cons i rest ih => simp [contextLines, ih]; omega

/-- The 6-line truncation in `_get_context_string` lands exactly on the last
3 stored interactions. -/
theorem lastSlice_six_contextLines (mem : List Interaction) :
    lastSlice 6 (contextLines mem) = contextLines (lastSlice 3 mem) := by
  rw [lastSlice, lastSlice, contextLines_drop, contextLines_length]
  congr 1
  omega

/-- Each stored interaction contributes its two lines at positions `2j` and
`2j + 1` of the context-line list, in insertion order. -/
theorem contextLines_getElem :
    ∀ (l : List Interaction) (j : Nat) (i : Interaction), l[j]? = some i →
      (contextLines l)[2 * j]? = some ("User: " ++ i.user_input) ∧
      (contextLines l)[2 * j + 1]? = some ("Assistant: " ++ i.response) := by
  intro l
  induction l with
  | nil => intro j i h; simp at h
  | cons a rest ih =>
    intro j i h
    cases j with
    | zero =>
      simp only [List.getElem?_cons_zero, Option.some.injEq] at h
      subst h
      norm_num [contextLines]
    | succ j' =>
      rw [List.getElem?_cons_succ] at h
      have h2 : 2 * (j' + 1) = 2 * j' + 1 + 1 := by omega
      rw [h2, contextLines]
      simp only [List.getElem?_cons_succ]
      exact ih j' i h

/-- Concrete material for claim C7: four stored interactions. -/
def memC7 : List Interaction :=
  [⟨"q1", "r1", "factual", 0⟩, ⟨"q2", "r2", "factual", 1⟩,
   ⟨"q3", "r3", "factual", 2⟩, ⟨"q4", "r4", "factual", 3⟩]

/-- Claim C7, counterexample: with 4 stored records (`k = 4 ≤ N` for any
capacity `N ≥ 4`) the rendered context is NOT the join of all `2k = 8` lines:
the code keeps only the last 6 lines, so the first interaction's lines are
missing. -/
theorem c7_render_context_counterexample :
    memC7 ≠ [] ∧
    _get_context_string memC7 ≠ String.intercalate "\n" (contextLines memC7) ∧
    (contextLines memC7).length = 2 * memC7.length ∧
    (lastSlice 6 (contextLines memC7)).length = 6 ∧
    _get_context_string memC7
      = "User: q2\nAssistant: r2\nUser: q3\nAssistant: r3\nUser: q4\nAssistant: r4" := by
  decide

/-- Claim C7 as amended: on the empty store the sentinel is returned; on a
store with `k` records the context is the join of the lines of the last
`min 3 k` records only — `2 * min 3 k` lines, alternating each kept record's
input line and response line, in insertion order. -/
theorem c7_render_context_amended (mem : List Interaction) :
    (mem = [] → _get_context_string mem = "No previous conversation.") ∧
    (mem ≠ [] →
      _get_context_string mem = String.intercalate "\n" (contextLines (lastSlice 3 mem)) ∧
      (contextLines (lastSlice 3 mem)).length = 2 * min 3 mem.length ∧
      ∀ j i, (lastSlice 3 mem)[j]? = some i →
        (contextLines (lastSlice 3 mem))[2 * j]? = some ("User: " ++ i.user_input) ∧
        (contextLines (lastSlice 3 mem))[2 * j + 1]? = some ("Assistant: " ++ i.response)) := by
  constructor
  · intro h
    simp [_get_context_string, h]
  · intro h
    refine ⟨?_, ?_, ?_⟩
    · rw [_get_context_string, if_neg (by simpa [List.isEmpty_iff] using h),
        lastSlice_six_contextLines]
    · rw [contextLines_length, length_lastSlice]
    · intro j i hji
      exact contextLines_getElem _ j i hji

/-- Witness for the amended C7: on the four concrete records the context is
the join of the last three records' lines, six lines in all, with the second
kept record's lines at positions 2 and 3. -/
theorem c7_render_context_amended_witness :
    _get_context_string memC7
      = String.intercalate "\n" (contextLines (lastSlice 3 memC7)) ∧
    (contextLines (lastSlice 3 memC7)).length = 2 * min 3 memC7.length ∧
    (contextLines (lastSlice 3 memC7))[2]? = some "User: q3" ∧
    (contextLines (lastSlice 3 memC7))[3]? = some "Assistant: r3" := by
  have h := (c7_render_context_amended memC7).2 (by decide)
  have hj := h.2.2 1 ⟨"q3", "r3", "factual", 2⟩ (by decide)
  exact ⟨h.1, h.2.1, hj.1.trans (by decide), hj.2.trans (by decide)⟩

/-- The context required by the spec's words (claim C2/C7 refinement target):
"exactly the last `memory_size` interactions, i.e., all currently stored
ones" — the join of the lines of ALL stored interactions. -/
def spec_context_full (memory : List Interaction) : String :=
  if memory.isEmpty then "No previous conversation."
  else String.intercalate "\n" (contextLines memory)

/-- The factual user message as the spec's words would have it: built around
`spec_context_full` instead of the truncated context. -/
def spec_factualUserMessage (memory : List Interaction) (user_input : String) : String :=
  "Context from previous conversation:\n" ++ spec_context_full memory ++
    "\n\nCurrent question: " ++ user_input ++ "\n\nPlease provide a direct, factual answer."

/-- Concrete material for claim C2: four stored interactions at capacity 4. -/
def memC2 : List Interaction :=
  [⟨"p1", "s1", "factual", 0⟩, ⟨"p2", "s2", "factual", 1⟩,
   ⟨"p3", "s3", "creative", 2⟩, ⟨"p4", "s4", "factual", 3⟩]

/-- Concrete agent state for claim C2: `memory_size = 4`, four records. -/
def stC2 : AgentState := ⟨memC2, 4⟩

set_option maxRecDepth 8192 in
/-- Claim C2, counterexample: with `memory_size = 4` and four stored records,
the message `process_input` hands to the factual generator is built from the
6-line-truncated context, not from all four stored interactions as the claim
requires — the first record's lines are absent. -/
theorem c2_context_counterexample :
    process_gen_call stC2 "What is the capital of France?" (.ok "factual") .error
      = some ⟨factualUserMessage memC2 "What is the capital of France?", factualApology⟩ ∧
    factualUserMessage memC2 "What is the capital of France?"
      ≠ spec_factualUserMessage memC2 "What is the capital of France?" := by
  decide

/-- Claim C2 as amended: during a processed request the generator variant is
handed the message built around `_get_context_string` of the pre-call memory,
and that context renders exactly the last `min 3 k` stored interactions (all
of them only when at most 3 are stored), each contributing its input and
response line, in insertion order. -/
theorem c2_context_amended (st : AgentState) (input : String)
    (intentPr genPr : ProviderResult) (h : pyStrip input ≠ "") :
    (∃ g, process_gen_call st input intentPr genPr = some g ∧
      (g.request = factualUserMessage st.memory (pyStrip input) ∨
       g.request = creativeUserMessage st.memory (pyStrip input))) ∧
    _get_context_string st.memory = spec_context_full (lastSlice 3 st.memory) := by
  constructor
  · by_cases hc : _detect_intent intentPr = "creative"
    · refine ⟨_generate_creative_response st.memory (pyStrip input) genPr, ?_, Or.inr rfl⟩
      simp [process_gen_call, h, hc]
    · refine ⟨_generate_factual_response st.memory (pyStrip input) genPr, ?_, Or.inl rfl⟩
      simp [process_gen_call, h, hc]
  · by_cases hm : st.memory = []
    · simp [hm, _get_context_string, spec_context_full, lastSlice]
    · have hne : (lastSlice 3 st.memory) ≠ [] := by
        have := length_lastSlice 3 st.memory
        intro hcon
        rw [hcon] at this
        simp only [List.length_nil] at this
        have : st.memory.length = 0 := by omega
        exact hm (List.length_eq_zero.mp this)
      rw [_get_context_string, if_neg (by simpa [List.isEmpty_iff] using hm),
        spec_context_full, if_neg (by simpa [List.isEmpty_iff] using hne),
        lastSlice_six_contextLines]

/-- Witness for the amended C2: a processed factual request at the concrete
four-record state is handed the factual message built from the truncated
context, which renders records 2–4 only. -/
theorem c2_context_amended_witness :
    (∃ g, process_gen_call stC2 "What is the capital of France?" (.ok "factual") .error
        = some g ∧
      (g.request = factualUserMessage stC2.memory (pyStrip "What is the capital of France?") ∨
       g.request = creativeUserMessage stC2.memory (pyStrip "What is the capital of France?"))) ∧
    _get_context_string stC2.memory = spec_context_full (lastSlice 3 stC2.memory) ∧
    _get_context_string stC2.memory
      = "User: p2\nAssistant: s2\nUser: p3\nAssistant: s3\nUser: p4\nAssistant: s4" := by
  have h := c2_context_amended stC2 "What is the capital of France?" (.ok "factual") .error
    (by decide)
  exact ⟨h.1, h.2, by decide⟩

/-- One state-changing operation on a live instance: a `process_input` call
(with the outcomes of its provider calls and the current time) or a
`clear_memory` call.  Appends happen inside `process_input`, which is the
only caller of `_store_interaction`. -/
inductive Op where
  | proc (user_input : String) (intentPr genPr : ProviderResult) (now : Nat)
  | clear
deriving Repr, DecidableEq

/-- Apply one operation to the state. -/
def applyOp (st : AgentState) : Op → AgentState
  | .proc input intentPr genPr now => (process_input st input intentPr genPr now).2
  | .clear => clear_memory st

/-- Run a sequence of operations. -/
def runOps (st : AgentState) (ops : List Op) : AgentState :=
  ops.foldl applyOp st

theorem mem_dequeAppend {n : Nat} {mem : List Interaction} {x i : Interaction}
    (h : i ∈ dequeAppend n mem x) : i ∈ mem ∨ i = x := by
  rw [dequeAppend, lastSlice] at h
  have h2 := List.mem_of_mem_drop h
  simpa using h2

/-- `process_input` either leaves the memory alone (invalid input) or appends
one record whose label is the detected intent. -/
theorem process_input_memory_cases (st : AgentState) (input : String)
    (intentPr genPr : ProviderResult) (now : Nat) :
    (process_input st input intentPr genPr now).2.memory = st.memory ∨
    ∃ resp, (process_input st input intentPr genPr now).2.memory
      = dequeAppend st.memory_size st.memory
          ⟨pyStrip input, resp, _detect_intent intentPr, now⟩ := by
  by_cases h : pyStrip input = ""
  · left
    simp [process_input, h]
  · right
    by_cases hc : _detect_intent intentPr = "creative"
    · exact ⟨(_generate_creative_response st.memory (pyStrip input) genPr).response,
        by simp [process_input, h, hc, _store_interaction]⟩
    · exact ⟨(_generate_factual_response st.memory (pyStrip input) genPr).response,
        by simp [process_input, h, hc, _store_interaction]⟩

/-- All stored records carry one of the two closed labels. -/
def labelClosed (l : List Interaction) : Prop :=
  ∀ i ∈ l, i.intent = "factual" ∨ i.intent = "creative"

theorem runOps_labelClosed (ops : List Op) :
    ∀ st : AgentState, labelClosed st.memory → labelClosed (runOps st ops).memory := by
  induction ops with
  | nil => intro st h; exact h
  | cons op ops ih =>
    intro st h
    have hstep : labelClosed (applyOp st op).memory := by
      cases op with
      | clear =>
        intro i hi
        simp [applyOp, clear_memory] at hi
      | proc input intentPr genPr now =>
        intro i hi
        rw [applyOp] at hi
        rcases process_input_memory_cases st input intentPr genPr now with hmem | ⟨resp, hmem⟩
        · rw [hmem] at hi
          exact h i hi
        · rw [hmem] at hi
          rcases mem_dequeAppend hi with hin | rfl
          · exact h i hin
          · exact detect_intent_cases intentPr
    exact ih _ hstep

/-- Two complementary boolean predicates partition a list. -/
theorem countP_add_countP_of_forall {α : Type} (p q : α → Bool) (l : List α)
    (h : ∀ a ∈ l, (p a = true ∧ q a = false) ∨ (p a = false ∧ q a = true)) :
    l.countP p + l.countP q = l.length := by
  induction l with
  | nil => rfl
  | cons a l ih =>
    have ha := h a (List.mem_cons_self a l)
    have ih2 := ih (fun x hx => h x (List.mem_cons_of_mem a hx))
    rw [List.countP_cons, List.countP_cons, List.length_cons]
    rcases ha with ⟨h1, h2⟩ | ⟨h1, h2⟩ <;> rw [h1, h2] <;> simp <;> omega

/-- On a label-closed list the factual and creative counts partition it. -/
theorem countP_labels {l : List Interaction} (h : labelClosed l) :
    l.countP (fun i => i.intent == "factual") + l.countP (fun i => i.intent == "creative")
      = l.length := by
  refine countP_add_countP_of_forall _ _ l ?_
  intro a ha
  rcases h a ha with hi | hi
  · refine Or.inl ⟨?_, ?_⟩
    · show (a.intent == "factual") = true
      rw [hi]
      decide
    · show (a.intent == "creative") = false
      rw [hi]
      decide
  · refine Or.inr ⟨?_, ?_⟩
    · show (a.intent == "factual") = false
      rw [hi]
      decide
    · show (a.intent == "creative") = true
      rw [hi]
      decide

/-- Claim C8: after any sequence of process/clear operations starting from a
fresh instance (appends occur inside `process_input`), the reported total
equals factual count plus creative count, and every stored record is labelled
`factual` or `creative` — never `unknown`. -/
theorem c8_stats_sum_invariant (n : Nat) (ops : List Op) :
    (get_memory_stats (runOps (initialState n) ops)).total_interactions
      = (get_memory_stats (runOps (initialState n) ops)).factual_count
        + (get_memory_stats (runOps (initialState n) ops)).creative_count ∧
    ∀ i ∈ (runOps (initialState n) ops).memory,
      i.intent = "factual" ∨ i.intent = "creative" := by
  have hinv : labelClosed (runOps (initialState n) ops).memory := by
    refine runOps_labelClosed ops (initialState n) ?_
    intro i hi
    simp [initialState] at hi
  refine ⟨?_, hinv⟩
  by_cases h : (runOps (initialState n) ops).memory = []
  · simp [get_memory_stats, h]
  · rw [get_memory_stats, if_neg (by simpa [List.isEmpty_iff] using h)]
    exact (countP_labels hinv).symm

/-- Python object-identity model for `get_memory_summary`: the deque holds
references into a heap of interaction dicts, and `list(self.memory)` builds a
fresh list of the same references — the dicts themselves are shared, not
copied. -/
structure PyState where
  memoryRefs  : List Nat
  heap        : Nat → Interaction
  memory_size : Nat

/-- A caller mutating the dict object at reference `r` (e.g.
`summary[j]['intent'] = ...`): the heap changes at `r`, every list holding
`r` sees the new value. -/
def pyHeapWrite (st : PyState) (r : Nat) (v : Interaction) : PyState :=
  { st with heap := fun x => if x = r then v else st.heap x }

/-- The interaction values currently stored, read through the heap. -/
def pyMemory (st : PyState) : List Interaction :=
  st.memoryRefs.map st.heap

/-- `get_memory_summary` under the identity model: `list(self.memory)` is a
fresh list containing the same references. -/
def py_get_memory_summary (st : PyState) : List Nat :=
  st.memoryRefs

/-- `get_memory_stats` under the identity model: computed from the values the
stored references currently point at. -/
def py_get_memory_stats (st : PyState) : MemoryStats :=
  get_memory_stats ⟨pyMemory st, st.memory_size⟩

/-- Concrete one-record state for claim C9. -/
def stC9 : PyState :=
  ⟨[0], fun _ => ⟨"What is the capital of France?", "Paris.", "factual", 0⟩, 3⟩

/-- Claim C9, counterexample: reference 0 appears in the summary returned by
`get_memory_summary`; a caller mutating that returned record's `intent` field
changes the store's observable state — `get_memory_stats` afterwards differs,
because the returned list shares its dicts with the deque. -/
theorem c9_snapshot_counterexample :
    0 ∈ py_get_memory_summary stC9 ∧
    py_get_memory_stats stC9 = ⟨1, 1, 0, some 3⟩ ∧
    py_get_memory_stats
        (pyHeapWrite stC9 0 ⟨"What is the capital of France?", "Paris.", "creative", 0⟩)
      = ⟨1, 0, 1, some 3⟩ ∧
    py_get_memory_stats
        (pyHeapWrite stC9 0 ⟨"What is the capital of France?", "Paris.", "creative", 0⟩)
      ≠ py_get_memory_stats stC9 := by
  refine ⟨by decide, by decide, by decide, by decide⟩

/-- Claim C9 as amended: `get_memory_summary` returns a fresh list, so list
mutations by the caller cannot reach the store, but the interaction records
are shared by reference; only heap mutations avoiding every reference in the
returned view leave the stored values and subsequent statistics unchanged. -/
theorem c9_snapshot_amended (st : PyState) (r : Nat) (v : Interaction)
    (h : r ∉ py_get_memory_summary st) :
    pyMemory (pyHeapWrite st r v) = pyMemory st ∧
    py_get_memory_stats (pyHeapWrite st r v) = py_get_memory_stats st := by
  have hmem : pyMemory (pyHeapWrite st r v) = pyMemory st := by
    rw [pyMemory, pyMemory]
    refine List.map_congr_left ?_
    intro x hx
    have hxr : x ≠ r := by
      intro hcon
      exact h (hcon ▸ hx)
    simp [pyHeapWrite, hxr]
  exact ⟨hmem, by rw [py_get_memory_stats, py_get_memory_stats, hmem]; rfl⟩

/-- Witness for the amended C9: writing at reference 5, which is not in the
returned summary of the concrete one-record state, leaves the stored values
and the statistics unchanged. -/
theorem c9_snapshot_amended_witness :
    pyMemory (pyHeapWrite stC9 5 ⟨"x", "y", "creative", 9⟩) = pyMemory stC9 ∧
    py_get_memory_stats (pyHeapWrite stC9 5 ⟨"x", "y", "creative", 9⟩)
      = py_get_memory_stats stC9 :=
  c9_snapshot_amended stC9 5 ⟨"x", "y", "creative", 9⟩ (by decide)

end AgenticLLM
